import Mathlib

/-!
Verification of `src/static/admin/js/liveclass_admin.js`.

The script registers a `DOMContentLoaded` handler which

* defines `toggleDaysOfWeek(recurrenceType)`: it looks up the
  `.field-days_of_week` container; when present and the value is `'weekly'` it
  sets `display = 'block'` and, if the label's `textContent` does not contain
  `'*'`, appends `' <span style="color: red;">*</span>'` to the label's
  `innerHTML`; otherwise it sets `display = 'none'`, removes the first
  occurrence of that exact marker string from the label's `innerHTML`, and
  unchecks every checkbox in the container;
* exposes the function on `window`;
* if `#id_recurrence_type` exists, calls the toggle with its current value and
  subscribes the toggle to its change events;
* unconditionally appends a `<style>` block to the document head;
* if `.field-days_of_week ul` exists, switches it to a grid layout and adds the
  `checkbox-row` class to each `li`.

The embedding below models a label's `innerHTML` as a `List Char`;
`textContent` is recovered by stripping everything between `<` and `>`.
JavaScript's `String.prototype.replace` with a plain-string pattern replaces
only the first occurrence, which `replaceFirst` mirrors.
-/

/-- Strip HTML tags from serialized markup: characters between `<` and `>` are
tag text and do not appear in `textContent`. The `Bool` is the in-tag state. -/
def stripTags : Bool → List Char → List Char
  | _, [] => []
  | true, c :: cs => if c = '>' then stripTags false cs else stripTags true cs
  | false, c :: cs => if c = '<' then stripTags true cs else c :: stripTags false cs

/-- Final in-tag state after scanning a chunk of markup. -/
def tagState : Bool → List Char → Bool
  | b, [] => b
  | true, c :: cs => if c = '>' then tagState false cs else tagState true cs
  | false, c :: cs => if c = '<' then tagState true cs else tagState false cs

/-- `textContent` of an element whose `innerHTML` is the given markup. -/
def textContent (l : List Char) : List Char := stripTags false l

/-- `startsWith s pat`: `s` begins with `pat` (character-wise). -/
def startsWith : List Char → List Char → Bool
  | _, [] => true
  | [], _ :: _ => false
  | c :: cs, p :: ps => c == p && startsWith cs ps

/-- `occursIn pat s`: `pat` occurs as a contiguous substring of `s`. -/
def occursIn (pat : List Char) : List Char → Bool
  | [] => pat.isEmpty
  | s@(_ :: cs) => startsWith s pat || occursIn pat cs

/-- JavaScript `s.replace(pat, '')` with a plain-string pattern: delete the
first occurrence of `pat`, leave `s` unchanged when `pat` does not occur. -/
def replaceFirst (s pat : List Char) : List Char :=
  match s with
  | [] => []
  | c :: cs => if startsWith (c :: cs) pat then (c :: cs).drop pat.length else c :: replaceFirst cs pat

/-- Length of the region before the first `'*'` of a string; proof device for
locating the unique occurrence of the marker inside appended markup. -/
def starIdx : List Char → Nat
  | [] => 0
  | c :: cs => if c = '*' then 0 else starIdx cs + 1

/-- The exact marker string the script appends / removes:
`' <span style="color: red;">*</span>'` (line 16 and line 23 of the script). -/
def requiredMarker : List Char := " <span style=\"color: red;\">*</span>".toList

/-- The `.field-days_of_week` container and its queryable descendants.
`containerPresent = false` models `document.querySelector` returning `null`;
`label` is the first `<label>` descendant (its `innerHTML`), `none` when
absent; `checkboxes` are the checked-states of all
`input[type="checkbox"]` descendants, in document order. -/
structure Dom where
  containerPresent : Bool
  display : String
  label : Option (List Char)
  checkboxes : List Bool
deriving DecidableEq, Repr

/-- Label update of the `weekly` branch (script lines 14-17): append the
marker unless the label's `textContent` already includes `'*'`. -/
def weeklyLabel (ol : Option (List Char)) : Option (List Char) :=
  match ol with
  | none => none
  | some l => if '*' ∈ textContent l then some l else some (l ++ requiredMarker)

/-- Label update of the non-`weekly` branch (script lines 21-24): remove the
first occurrence of the exact marker string. -/
def hideLabel (ol : Option (List Char)) : Option (List Char) :=
  ol.map (fun l => replaceFirst l requiredMarker)

/-- `toggleDaysOfWeek` (script lines 8-32). -/
def toggleDaysOfWeek (recurrenceType : String) (d : Dom) : Dom :=
  if d.containerPresent then
    if recurrenceType = "weekly" then
      { d with display := "block", label := weeklyLabel d.label }
    else
      { d with display := "none",
               label := hideLabel d.label,
               checkboxes := d.checkboxes.map (fun _ => false) }
  else d

/-- The `.field-days_of_week ul` element: its inline styles and the class
lists of its `li` children. -/
structure Ul where
  listStyle : String
  padding : String
  display : String
  gridTemplateColumns : String
  gap : String
  items : List (List String)
deriving DecidableEq, Repr

/-- Whole-page state as far as the script can observe or mutate it. -/
structure Page where
  dom : Dom
  recurrenceValue : Option String
  changeListenerAttached : Bool
  windowToggleExposed : Bool
  styleBlocks : List String
  ul : Option Ul
deriving DecidableEq, Repr

/-- Text of the `<style>` block the handler appends (script lines 50-77). -/
def adminCss : String :=
  ".field-days_of_week \x7b border-left: 3px solid var(--primary); padding-left: 10px; margin-left: 5px; background-color: var(--darkened-bg); padding: 10px; border-radius: 4px; \x7d "
    ++ ".field-days_of_week .checkbox-row \x7b display: inline-block; margin-right: 15px; margin-bottom: 5px; min-width: 100px; \x7d "
    ++ ".field-days_of_week label \x7b font-weight: 600; color: var(--body-fg); \x7d "
    ++ ".field-days_of_week input[type=\"checkbox\"] \x7b margin-right: 5px; \x7d"

/-- `li.classList.add('checkbox-row')`: adds the class unless already present. -/
def addCheckboxRowClass (cls : List String) : List String :=
  if "checkbox-row" ∈ cls then cls else cls ++ ["checkbox-row"]

/-- Grid-layout step of the handler (script lines 80-92). -/
def applyUlLayout (u : Ul) : Ul :=
  { u with listStyle := "none",
           padding := "0",
           display := "grid",
           gridTemplateColumns := "repeat(auto-fit, minmax(120px, 1fr))",
           gap := "10px",
           items := u.items.map addCheckboxRowClass }

/-- The `DOMContentLoaded` handler (script lines 6-93): expose the toggle
globally; if `#id_recurrence_type` exists, run the toggle on its value and
subscribe to changes; unconditionally append the style block; if the
container's `ul` exists, apply the grid layout. -/
def initPage (p : Page) : Page :=
  let p1 : Page := { p with windowToggleExposed := true }
  let p2 : Page :=
    match p1.recurrenceValue with
    | some v => { p1 with dom := toggleDaysOfWeek v p1.dom, changeListenerAttached := true }
    | none => p1
  let p3 : Page := { p2 with styleBlocks := p2.styleBlocks ++ [adminCss] }
  match p3.ul with
  | some u => { p3 with ul := some (applyUlLayout u) }
  | none => p3

/-- Run a sequence of change events: each applies `toggleDaysOfWeek` with the
newly selected value (script lines 44-46). -/
def runEvents (d : Dom) (vs : List String) : Dom :=
  vs.foldl (fun s v => toggleDaysOfWeek v s) d

/-- The required-marker glyph is visible in the label: some `'*'` appears in
the label's `textContent`. `False` when the label is absent. -/
def markerShown : Option (List Char) → Prop
  | none => False
  | some l => '*' ∈ textContent l

/-- Consistency invariant tying the container's state to the recurrence value
`v` most recently passed to the toggle, for a page whose label started as the
marker-free markup `l0`. -/
def RecInv (l0 : List Char) (v : String) (d : Dom) : Prop :=
  d.containerPresent = true ∧
    ((v = "weekly" ∧ d.label = some (l0 ++ requiredMarker) ∧ d.display = "block")
      ∨ (¬ v = "weekly" ∧ d.label = some l0 ∧ d.display = "none"))

/-- Sample marker-free label markup, as the admin framework renders it. -/
def sampleLabel : List Char := "Days of week:".toList

/-- Sample container with the label above and one checked checkbox. -/
def sampleDom : Dom :=
  { containerPresent := true, display := "", label := some sampleLabel,
    checkboxes := [true, false] }

/-- Sample container whose label already carries the appended marker and
whose checkboxes are checked, as reached after a `weekly` toggle. -/
def markedDom : Dom :=
  { containerPresent := true, display := "block",
    label := some (sampleLabel ++ requiredMarker), checkboxes := [true, true] }

/-- Sample container with no label. -/
def noLabelDom : Dom :=
  { containerPresent := true, display := "", label := none, checkboxes := [true] }

/-- Sample label markup that already carries an asterisk from the host page. -/
def hostStarLabel : List Char := "Days *".toList

/-- Sample container whose label carries a host-supplied asterisk. -/
def hostStarDom : Dom :=
  { containerPresent := true, display := "", label := some hostStarLabel,
    checkboxes := [true] }

/-- Page lacking the `#id_recurrence_type` element but with a visible
container holding a checked checkbox. -/
def pageNoRecurrence : Page :=
  { dom := { containerPresent := true, display := "block", label := some sampleLabel,
             checkboxes := [true] },
    recurrenceValue := none, changeListenerAttached := false,
    windowToggleExposed := false, styleBlocks := [], ul := none }

/-- Page lacking the `.field-days_of_week` container entirely. -/
def pageNoContainer : Page :=
  { dom := { containerPresent := false, display := "", label := none, checkboxes := [] },
    recurrenceValue := some "weekly", changeListenerAttached := false,
    windowToggleExposed := false, styleBlocks := [], ul := none }

/-- Sample `ul` with two bare `li` items. -/
def sampleUl : Ul :=
  { listStyle := "disc", padding := "", display := "", gridTemplateColumns := "",
    gap := "", items := [[], ["existing"]] }

/-- Page with a container, a `ul` of two items, and recurrence `daily`. -/
def pageWithUl : Page :=
  { dom := sampleDom, recurrenceValue := some "daily", changeListenerAttached := false,
    windowToggleExposed := false, styleBlocks := [], ul := some sampleUl }

/-- Any list starts with its own prefix part. -/
lemma startsWith_append_self (pat t : List Char) : startsWith (pat ++ t) pat = true := by
  induction pat with
  | nil => cases t <;> rfl
  | cons p ps ih => simp [startsWith, ih]

/-- A list starts with itself. -/
lemma startsWith_self (s : List Char) : startsWith s s = true := by
  have h := startsWith_append_self s []
  simpa using h

/-- `startsWith` certifies a prefix decomposition. -/
lemma exists_of_startsWith : ∀ (s pat : List Char), startsWith s pat = true → ∃ t, s = pat ++ t
  | s, [], _ => ⟨s, rfl⟩
  | [], _ :: _, h => by simp [startsWith] at h
  | c :: cs, p :: ps, h => by
    simp only [startsWith, Bool.and_eq_true, beq_iff_eq] at h
    obtain ⟨t, ht⟩ := exists_of_startsWith cs ps h.2
    exact ⟨t, by simp [h.1, ht]⟩

/-- Characters of a verified pattern occur in the scanned list. -/
lemma mem_of_startsWith {s pat : List Char} (h : startsWith s pat = true) {x : Char}
    (hx : x ∈ pat) : x ∈ s := by
  obtain ⟨t, rfl⟩ := exists_of_startsWith s pat h
  exact List.mem_append_left t hx

/-- `starIdx` ignores everything after a star in the first chunk. -/
lemma starIdx_append_of_mem {l1 : List Char} (h : '*' ∈ l1) (l2 : List Char) :
    starIdx (l1 ++ l2) = starIdx l1 := by
  induction l1 with
  | nil => cases h
  | cons c cs ih =>
    by_cases hc : c = '*'
    · simp [starIdx, hc]
    · have hm : '*' ∈ cs := by
        rcases List.mem_cons.mp h with h1 | h1
        · exact absurd h1.symm hc
        · exact h1
      simp [starIdx, hc, ih hm]

/-- `starIdx` passes over a star-free first chunk entirely. -/
lemma starIdx_append_of_not_mem {l1 : List Char} (h : '*' ∉ l1) (l2 : List Char) :
    starIdx (l1 ++ l2) = l1.length + starIdx l2 := by
  induction l1 with
  | nil => simp [starIdx]
  | cons c cs ih =>
    have hc : ¬ c = '*' := fun hc => h (by rw [hc]; exact List.mem_cons_self '*' cs)
    have hcs : '*' ∉ cs := fun hm => h (List.mem_cons_of_mem c hm)
    show starIdx (c :: (cs ++ l2)) = (c :: cs).length + starIdx l2
    simp only [starIdx, List.length_cons]
    rw [if_neg hc, ih hcs]
    omega

/-- A starred pattern cannot occur strictly before its own copy appended after
a star-free nonempty chunk. -/
lemma startsWith_cons_append_false {pat : List Char} (hp : '*' ∈ pat)
    (c : Char) (cs : List Char) (hs : '*' ∉ c :: cs) :
    startsWith (c :: cs ++ pat) pat = false := by
  cases hb : startsWith (c :: cs ++ pat) pat
  · rfl
  · exfalso
    obtain ⟨t, ht⟩ := exists_of_startsWith _ _ hb
    have h1 := congrArg starIdx ht
    rw [show c :: cs ++ pat = (c :: cs) ++ pat from rfl,
        starIdx_append_of_not_mem hs pat, starIdx_append_of_mem hp t,
        List.length_cons] at h1
    omega

/-- Deleting the first occurrence of a starred pattern appended after
star-free markup recovers exactly the original markup. -/
lemma replaceFirst_append_self {l : List Char} (hs : '*' ∉ l) {pat : List Char}
    (hp : '*' ∈ pat) : replaceFirst (l ++ pat) pat = l := by
  induction l with
  | nil =>
    cases pat with
    | nil => cases hp
    | cons p ps =>
      simp only [List.nil_append, replaceFirst, startsWith_self, if_true]
      exact List.drop_length _
  | cons c cs ih =>
    have hcs : '*' ∉ cs := fun hm => hs (List.mem_cons_of_mem c hm)
    have hsw : startsWith (c :: (cs ++ pat)) pat = false := by
      have h0 := startsWith_cons_append_false hp c cs hs
      rwa [List.cons_append] at h0
    simp [List.cons_append, replaceFirst, hsw, ih hcs]

/-- A starred pattern never matches inside star-free markup. -/
lemma startsWith_false_of_star {pat : List Char} (hp : '*' ∈ pat) {s : List Char}
    (hs : '*' ∉ s) : startsWith s pat = false := by
  cases hb : startsWith s pat
  · rfl
  · exact absurd (mem_of_startsWith hb hp) hs

/-- Removing a starred pattern from star-free markup changes nothing. -/
lemma replaceFirst_id_of_star {pat : List Char} (hp : '*' ∈ pat) :
    ∀ {s : List Char}, '*' ∉ s → replaceFirst s pat = s := by
  intro s
  induction s with
  | nil => intro _; rfl
  | cons c cs ih =>
    intro hs
    have hcs : '*' ∉ cs := fun hm => hs (List.mem_cons_of_mem c hm)
    simp [replaceFirst, startsWith_false_of_star hp hs, ih hcs]

/-- When the pattern does not occur at all, `replaceFirst` is the identity. -/
lemma replaceFirst_id_of_not_occurs {pat : List Char} :
    ∀ {s : List Char}, occursIn pat s = false → replaceFirst s pat = s := by
  intro s
  induction s with
  | nil => intro _; rfl
  | cons c cs ih =>
    intro h
    simp only [occursIn, Bool.or_eq_false_iff] at h
    simp [replaceFirst, h.1, ih h.2]

/-- Tag-stripping distributes over append, threading the in-tag state. -/
lemma stripTags_append (b : Bool) (l1 l2 : List Char) :
    stripTags b (l1 ++ l2) = stripTags b l1 ++ stripTags (tagState b l1) l2 := by
  induction l1 generalizing b with
  | nil => simp [stripTags, tagState]
  | cons c cs ih =>
    cases b with
    | true => by_cases hc : c = '>' <;> simp [stripTags, tagState, hc, ih]
    | false => by_cases hc : c = '<' <;> simp [stripTags, tagState, hc, ih]

/-- Every character of the stripped text comes from the markup. -/
lemma mem_of_mem_stripTags {x : Char} :
    ∀ {b : Bool} {l : List Char}, x ∈ stripTags b l → x ∈ l := by
  intro b l
  induction l generalizing b with
  | nil => intro h; simp [stripTags] at h
  | cons c cs ih =>
    intro h
    cases b with
    | true =>
      simp only [stripTags] at h
      split at h
      · exact List.mem_cons_of_mem c (ih h)
      · exact List.mem_cons_of_mem c (ih h)
    | false =>
      simp only [stripTags] at h
      split at h
      · exact List.mem_cons_of_mem c (ih h)
      · rcases List.mem_cons.mp h with h1 | h1
        · rw [h1]; exact List.mem_cons_self c cs
        · exact List.mem_cons_of_mem c (ih h1)

/-- Star-free markup yields star-free text content. -/
lemma not_mem_stripTags {l : List Char} (h : '*' ∉ l) (b : Bool) :
    '*' ∉ stripTags b l :=
  fun hm => h (mem_of_mem_stripTags hm)

/-- The marker's asterisk survives tag-stripping from either state. -/
lemma star_mem_stripTags_marker (b : Bool) : '*' ∈ stripTags b requiredMarker := by
  cases b <;> decide

/-- Appending the marker always makes the text content contain a star. -/
lemma star_mem_textContent_append (l : List Char) :
    '*' ∈ textContent (l ++ requiredMarker) := by
  unfold textContent
  rw [stripTags_append]
  exact List.mem_append_right _ (star_mem_stripTags_marker _)

/-- The marker contributes exactly one star to the text content. -/
lemma count_star_stripTags_marker (b : Bool) :
    (stripTags b requiredMarker).count '*' = 1 := by
  cases b <;> decide

/-- Star-free markup plus the marker shows exactly one star glyph. -/
lemma count_star_textContent_append {l : List Char} (h : '*' ∉ l) :
    (textContent (l ++ requiredMarker)).count '*' = 1 := by
  unfold textContent
  rw [stripTags_append, List.count_append,
      List.count_eq_zero.mpr (not_mem_stripTags h false),
      count_star_stripTags_marker]

/-- Weekly branch on a marker-free label: the marker is appended. -/
lemma weeklyLabel_fresh {l : List Char} (h : '*' ∉ l) :
    weeklyLabel (some l) = some (l ++ requiredMarker) := by
  simp only [weeklyLabel, textContent]
  rw [if_neg (not_mem_stripTags h false)]

/-- Weekly branch on a label already carrying the marker: no change. -/
lemma weeklyLabel_marked (l : List Char) :
    weeklyLabel (some (l ++ requiredMarker)) = some (l ++ requiredMarker) := by
  simp only [weeklyLabel]
  rw [if_pos (star_mem_textContent_append l)]

/-- Non-weekly branch on a marker-free label: no change. -/
lemma hideLabel_fresh {l : List Char} (h : '*' ∉ l) : hideLabel (some l) = some l := by
  show some (replaceFirst l requiredMarker) = some l
  rw [replaceFirst_id_of_star (show '*' ∈ requiredMarker by decide) h]

/-- Non-weekly branch on a label carrying the appended marker: the marker and
nothing else is removed. -/
lemma hideLabel_marked {l : List Char} (h : '*' ∉ l) :
    hideLabel (some (l ++ requiredMarker)) = some l := by
  show some (replaceFirst (l ++ requiredMarker) requiredMarker) = some l
  rw [replaceFirst_append_self h (show '*' ∈ requiredMarker by decide)]

/-- One toggle step establishes the consistency invariant for the value it
was called with, from any reachable label state. -/
lemma recInv_toggle {l0 : List Char} (hs : '*' ∉ l0) (w : String) {d : Dom}
    (hc : d.containerPresent = true)
    (hl : d.label = some l0 ∨ d.label = some (l0 ++ requiredMarker)) :
    RecInv l0 w (toggleDaysOfWeek w d) := by
  obtain ⟨cp, disp, lab, cbs⟩ := d
  have hcp : cp = true := hc
  subst hcp
  by_cases hw : w = "weekly"
  · subst hw
    rcases hl with hl | hl <;> have hlab : lab = _ := hl <;> subst hlab
    · exact ⟨rfl, Or.inl ⟨rfl, by simp [toggleDaysOfWeek, weeklyLabel_fresh hs], rfl⟩⟩
    · exact ⟨rfl, Or.inl ⟨rfl, by simp [toggleDaysOfWeek, weeklyLabel_marked], rfl⟩⟩
  · rcases hl with hl | hl <;> have hlab : lab = _ := hl <;> subst hlab
    · exact ⟨by simp [toggleDaysOfWeek, hw], Or.inr ⟨hw,
        by simp [toggleDaysOfWeek, hw, hideLabel_fresh hs],
        by simp [toggleDaysOfWeek, hw]⟩⟩
    · exact ⟨by simp [toggleDaysOfWeek, hw], Or.inr ⟨hw,
        by simp [toggleDaysOfWeek, hw, hideLabel_marked hs],
        by simp [toggleDaysOfWeek, hw]⟩⟩

/-- The invariant implies the precondition of the next step. -/
lemma recInv_pre {l0 : List Char} {v : String} {d : Dom} (h : RecInv l0 v d) :
    d.containerPresent = true ∧
      (d.label = some l0 ∨ d.label = some (l0 ++ requiredMarker)) := by
  obtain ⟨hc, h | h⟩ := h
  · exact ⟨hc, Or.inr h.2.1⟩
  · exact ⟨hc, Or.inl h.2.1⟩

/-- The invariant is preserved by any sequence of change events and ends up
tied to the last value of the sequence. -/
lemma recInv_runEvents {l0 : List Char} (hs : '*' ∉ l0) :
    ∀ (vs : List String) {v : String} {d : Dom}, RecInv l0 v d →
      RecInv l0 (vs.getLastD v) (runEvents d vs) := by
  intro vs
  induction vs with
  | nil => intro v d h; simpa [runEvents] using h
  | cons w ws ih =>
    intro v d h
    have hpre := recInv_pre h
    have hstep := recInv_toggle hs w hpre.1 hpre.2
    have hrun : runEvents d (w :: ws) = runEvents (toggleDaysOfWeek w d) ws := by
      simp [runEvents]
    have hlast : (w :: ws).getLastD v = ws.getLastD w := by
      cases ws <;> simp [List.getLastD]
    rw [hrun, hlast]
    exact ih hstep

/-- Claim C1: for every recurrence value `v`, calling `toggleDaysOfWeek v` on
a page with the container present leaves the container visible
(`display = 'block'`) iff `v = 'weekly'`; every other value, recognized or
not, is handled exactly like the non-weekly case and hides the container. -/
theorem claimC1 (v : String) (d : Dom) (hc : d.containerPresent = true) :
    ((toggleDaysOfWeek v d).display = "block" ↔ v = "weekly")
    ∧ (¬ v = "weekly" →
        toggleDaysOfWeek v d = toggleDaysOfWeek "monthly" d
        ∧ (toggleDaysOfWeek v d).display = "none") := by
  by_cases hv : v = "weekly"
  · subst hv
    refine ⟨?_, fun h => absurd rfl h⟩
    simp [toggleDaysOfWeek, hc]
  · refine ⟨?_, fun _ => ⟨?_, ?_⟩⟩
    · simp [toggleDaysOfWeek, hc, hv]
    · simp [toggleDaysOfWeek, hc, hv]
    · simp [toggleDaysOfWeek, hc, hv]

/-- Witness for C1: evaluated at `'weekly'` on the sample container. -/
theorem claimC1_wit :
    (((toggleDaysOfWeek "weekly" sampleDom).display = "block") ↔ "weekly" = "weekly")
    ∧ (¬ "weekly" = "weekly" →
        toggleDaysOfWeek "weekly" sampleDom = toggleDaysOfWeek "monthly" sampleDom
        ∧ (toggleDaysOfWeek "weekly" sampleDom).display = "none") :=
  claimC1 "weekly" sampleDom rfl

/-- Claim C2: in every state reachable from initialization (a first toggle
with the initial value `v0`) through any sequence `vs` of change events, the
container's visibility and the label's required-marker agree with the current
recurrence value `vs.getLastD v0`: display `'block'` with the marker shown
iff it is `'weekly'`, display `'none'` with no marker otherwise. -/
theorem claimC2 (d : Dom) (l0 : List Char) (v0 : String) (vs : List String)
    (hc : d.containerPresent = true) (hl : d.label = some l0) (hs : '*' ∉ l0) :
    (vs.getLastD v0 = "weekly" →
        (runEvents (toggleDaysOfWeek v0 d) vs).display = "block"
        ∧ markerShown (runEvents (toggleDaysOfWeek v0 d) vs).label)
    ∧ (¬ vs.getLastD v0 = "weekly" →
        (runEvents (toggleDaysOfWeek v0 d) vs).display = "none"
        ∧ ¬ markerShown (runEvents (toggleDaysOfWeek v0 d) vs).label) := by
  have h0 : RecInv l0 v0 (toggleDaysOfWeek v0 d) :=
    recInv_toggle hs v0 hc (Or.inl hl)
  obtain ⟨hcp, hcase⟩ := recInv_runEvents hs vs h0
  constructor
  · intro hw
    rcases hcase with ⟨_, hlab, hdisp⟩ | ⟨hne, _, _⟩
    · refine ⟨hdisp, ?_⟩
      rw [hlab]
      show '*' ∈ textContent (l0 ++ requiredMarker)
      exact star_mem_textContent_append l0
    · exact absurd hw hne
  · intro hw
    rcases hcase with ⟨hweq, _, _⟩ | ⟨_, hlab, hdisp⟩
    · exact absurd hweq hw
    · refine ⟨hdisp, ?_⟩
      rw [hlab]
      show ¬ '*' ∈ textContent l0
      exact not_mem_stripTags hs false

/-- Witness for C2: initial value `'monthly'`, then events
`['daily', 'weekly']`, on the sample container. -/
theorem claimC2_wit :
    ((["daily", "weekly"].getLastD "monthly") = "weekly" →
        (runEvents (toggleDaysOfWeek "monthly" sampleDom) ["daily", "weekly"]).display = "block"
        ∧ markerShown (runEvents (toggleDaysOfWeek "monthly" sampleDom) ["daily", "weekly"]).label)
    ∧ (¬ (["daily", "weekly"].getLastD "monthly") = "weekly" →
        (runEvents (toggleDaysOfWeek "monthly" sampleDom) ["daily", "weekly"]).display = "none"
        ∧ ¬ markerShown (runEvents (toggleDaysOfWeek "monthly" sampleDom) ["daily", "weekly"]).label) :=
  claimC2 sampleDom sampleLabel "monthly" ["daily", "weekly"] rfl rfl (by decide)

/-- Claim C9: the `'weekly'` branch never touches any checkbox: after
`toggleDaysOfWeek 'weekly'` every checkbox's checked state equals its state
before the call, whatever the container state. -/
theorem claimC9 (d : Dom) : (toggleDaysOfWeek "weekly" d).checkboxes = d.checkboxes := by
  cases hc : d.containerPresent <;> simp [toggleDaysOfWeek, hc]

/-- Claim C7: the toggle tolerates missing elements for every input value:
with no container it is a complete no-op, and with a container but no label
the marker steps are skipped while the display is still set and, in the
non-weekly case, the checkboxes are still cleared. -/
theorem claimC7 (v : String) (d : Dom) :
    (d.containerPresent = false → toggleDaysOfWeek v d = d)
    ∧ (d.containerPresent = true → d.label = none →
        (toggleDaysOfWeek v d).label = none
        ∧ (toggleDaysOfWeek v d).display = (if v = "weekly" then "block" else "none")
        ∧ (toggleDaysOfWeek v d).checkboxes
            = (if v = "weekly" then d.checkboxes else d.checkboxes.map (fun _ => false))) := by
  constructor
  · intro hc
    simp [toggleDaysOfWeek, hc]
  · intro hc hl
    by_cases hv : v = "weekly" <;>
      simp [toggleDaysOfWeek, hc, hl, hv, weeklyLabel, hideLabel]

/-- Witness for C7: evaluated at `'daily'` on the label-free container. -/
theorem claimC7_wit :
    (noLabelDom.containerPresent = false → toggleDaysOfWeek "daily" noLabelDom = noLabelDom)
    ∧ (noLabelDom.containerPresent = true → noLabelDom.label = none →
        (toggleDaysOfWeek "daily" noLabelDom).label = none
        ∧ (toggleDaysOfWeek "daily" noLabelDom).display
            = (if "daily" = "weekly" then "block" else "none")
        ∧ (toggleDaysOfWeek "daily" noLabelDom).checkboxes
            = (if "daily" = "weekly" then noLabelDom.checkboxes
               else noLabelDom.checkboxes.map (fun _ => false))) :=
  claimC7 "daily" noLabelDom

/-- Claim C10: the presence check matches any asterisk, not only the script's
glyph: when the label's `textContent` already contains `'*'`, the weekly
branch appends nothing; and the non-weekly branch removes only the exact
marker string — when that exact string does not occur in the label's markup,
the markup, any other asterisk included, is left intact. -/
theorem claimC10 (d : Dom) (l : List Char) (v : String)
    (hc : d.containerPresent = true) (hl : d.label = some l) :
    ('*' ∈ textContent l → (toggleDaysOfWeek "weekly" d).label = some l)
    ∧ (¬ v = "weekly" → occursIn requiredMarker l = false →
        (toggleDaysOfWeek v d).label = some l) := by
  constructor
  · intro hstar
    have hlab : weeklyLabel (some l) = some l := by
      simp only [weeklyLabel]
      rw [if_pos hstar]
    simp [toggleDaysOfWeek, hc, hl, hlab]
  · intro hv hocc
    have hlab : hideLabel (some l) = some l := by
      show some (replaceFirst l requiredMarker) = some l
      rw [replaceFirst_id_of_not_occurs hocc]
    simp [toggleDaysOfWeek, hc, hl, hv, hlab]

/-- Witness for C10: label markup `'Days *'` with a host-supplied asterisk,
non-weekly value `'daily'`. -/
theorem claimC10_wit :
    ('*' ∈ textContent hostStarLabel →
        (toggleDaysOfWeek "weekly" hostStarDom).label = some hostStarLabel)
    ∧ (¬ "daily" = "weekly" → occursIn requiredMarker hostStarLabel = false →
        (toggleDaysOfWeek "daily" hostStarDom).label = some hostStarLabel) :=
  claimC10 hostStarDom hostStarLabel "daily" rfl rfl

/-- Claim C5: starting from a container whose label markup is marker-free,
calling the toggle with `'weekly'` twice yields a label showing exactly one
required-marker glyph, never two: the second call detects the existing marker
and changes nothing at all. -/
theorem claimC5 (d : Dom) (l : List Char) (hc : d.containerPresent = true)
    (hl : d.label = some l) (hs : '*' ∉ l) :
    (toggleDaysOfWeek "weekly" (toggleDaysOfWeek "weekly" d)).label
        = some (l ++ requiredMarker)
    ∧ (textContent (l ++ requiredMarker)).count '*' = 1
    ∧ toggleDaysOfWeek "weekly" (toggleDaysOfWeek "weekly" d)
        = toggleDaysOfWeek "weekly" d := by
  obtain ⟨cp, disp, lab, cbs⟩ := d
  have hcp : cp = true := hc
  subst hcp
  have hlab : lab = some l := hl
  subst hlab
  have h1 : toggleDaysOfWeek "weekly" (⟨true, disp, some l, cbs⟩ : Dom)
      = ⟨true, "block", some (l ++ requiredMarker), cbs⟩ := by
    simp [toggleDaysOfWeek, weeklyLabel_fresh hs]
  have h2 : toggleDaysOfWeek "weekly" (⟨true, "block", some (l ++ requiredMarker), cbs⟩ : Dom)
      = ⟨true, "block", some (l ++ requiredMarker), cbs⟩ := by
    simp [toggleDaysOfWeek, weeklyLabel_marked]
  rw [h1, h2]
  exact ⟨rfl, count_star_textContent_append hs, rfl⟩

/-- Witness for C5: on the sample container with the marker-free label. -/
theorem claimC5_wit :
    (toggleDaysOfWeek "weekly" (toggleDaysOfWeek "weekly" sampleDom)).label
        = some (sampleLabel ++ requiredMarker)
    ∧ (textContent (sampleLabel ++ requiredMarker)).count '*' = 1
    ∧ toggleDaysOfWeek "weekly" (toggleDaysOfWeek "weekly" sampleDom)
        = toggleDaysOfWeek "weekly" sampleDom :=
  claimC5 sampleDom sampleLabel rfl rfl (by decide)

/-- Claim C6: for any non-weekly value, from any reachable prior state —
label with or without the appended marker, checkboxes in any state — the
toggle hides the container, leaves the label with zero marker glyphs,
unchecks every checkbox, and calling it again changes nothing. -/
theorem claimC6 (d : Dom) (l0 : List Char) (v : String)
    (hc : d.containerPresent = true) (hv : ¬ v = "weekly")
    (hl : d.label = some l0 ∨ d.label = some (l0 ++ requiredMarker))
    (hs : '*' ∉ l0) :
    (toggleDaysOfWeek v d).label = some l0
    ∧ (textContent l0).count '*' = 0
    ∧ (∀ b ∈ (toggleDaysOfWeek v d).checkboxes, b = false)
    ∧ (toggleDaysOfWeek v d).display = "none"
    ∧ toggleDaysOfWeek v (toggleDaysOfWeek v d) = toggleDaysOfWeek v d := by
  obtain ⟨cp, disp, lab, cbs⟩ := d
  have hcp : cp = true := hc
  subst hcp
  have hcount : (textContent l0).count '*' = 0 :=
    List.count_eq_zero.mpr (not_mem_stripTags hs false)
  have hlab : hideLabel lab = some l0 := by
    rcases hl with hl | hl <;> have hlab0 : lab = _ := hl <;> subst hlab0
    · exact hideLabel_fresh hs
    · exact hideLabel_marked hs
  have h1 : toggleDaysOfWeek v (⟨true, disp, lab, cbs⟩ : Dom)
      = ⟨true, "none", some l0, cbs.map (fun _ => false)⟩ := by
    simp [toggleDaysOfWeek, hv]
    exact hlab
  have h2 : toggleDaysOfWeek v (⟨true, "none", some l0, cbs.map (fun _ => false)⟩ : Dom)
      = ⟨true, "none", some l0, cbs.map (fun _ => false)⟩ := by
    simp [toggleDaysOfWeek, hv, hideLabel_fresh hs, List.map_map]
  rw [h1, h2]
  refine ⟨rfl, hcount, ?_, rfl, rfl⟩
  intro b hb
  rcases List.mem_map.mp hb with ⟨a, _, rfl⟩
  rfl

/-- Witness for C6: value `'daily'` on the marked container with both
checkboxes checked. -/
theorem claimC6_wit :
    (toggleDaysOfWeek "daily" markedDom).label = some sampleLabel
    ∧ (textContent sampleLabel).count '*' = 0
    ∧ (∀ b ∈ (toggleDaysOfWeek "daily" markedDom).checkboxes, b = false)
    ∧ (toggleDaysOfWeek "daily" markedDom).display = "none"
    ∧ toggleDaysOfWeek "daily" (toggleDaysOfWeek "daily" markedDom)
        = toggleDaysOfWeek "daily" markedDom :=
  claimC6 markedDom sampleLabel "daily" rfl (by decide) (Or.inr rfl) (by decide)

/-- Claim C3 counterexample: on a page with no recurrence-type element whose
container starts visible with a checked checkbox, initialization leaves the
container visible and the checkbox checked — the container is not put into
the non-weekly state. -/
theorem claimC3_cex :
    pageNoRecurrence.recurrenceValue = none
    ∧ pageNoRecurrence.dom.containerPresent = true
    ∧ ¬ (initPage pageNoRecurrence).dom.display = "none"
    ∧ ¬ (initPage pageNoRecurrence).dom.checkboxes.all (fun b => !b) = true := by
  refine ⟨rfl, rfl, ?_, ?_⟩ <;> decide

/-- Claim C3 (amended): when the recurrence-type element is absent,
initialization completes without failing — it still registers the global
function and injects the style block — but it never calls the toggle: the
container's display, label and checkboxes are left exactly as the host
rendered them, and no change listener is attached. -/
theorem claimC3 (p : Page) (h : p.recurrenceValue = none) :
    (initPage p).dom = p.dom
    ∧ (initPage p).changeListenerAttached = p.changeListenerAttached
    ∧ (initPage p).windowToggleExposed = true
    ∧ (initPage p).styleBlocks = p.styleBlocks ++ [adminCss] := by
  obtain ⟨dom, rv, cl, wt, sb, ul⟩ := p
  have hrv : rv = none := h
  subst hrv
  cases ul <;> simp [initPage]

/-- Witness for C3 (amended): evaluated on the page with no recurrence
element. -/
theorem claimC3_wit :
    (initPage pageNoRecurrence).dom = pageNoRecurrence.dom
    ∧ (initPage pageNoRecurrence).changeListenerAttached
        = pageNoRecurrence.changeListenerAttached
    ∧ (initPage pageNoRecurrence).windowToggleExposed = true
    ∧ (initPage pageNoRecurrence).styleBlocks
        = pageNoRecurrence.styleBlocks ++ [adminCss] :=
  claimC3 pageNoRecurrence rfl

/-- Claim C4 counterexample: on a page with no days-of-week container,
initialization still appends the style block to the document head and still
attaches the change listener — DOM mutation beyond registering the global
function does occur. -/
theorem claimC4_cex :
    pageNoContainer.dom.containerPresent = false
    ∧ pageNoContainer.styleBlocks = []
    ∧ (initPage pageNoContainer).styleBlocks = [adminCss]
    ∧ (initPage pageNoContainer).changeListenerAttached = true :=
  ⟨rfl, rfl, rfl, rfl⟩

/-- Claim C4 (amended): when the container is absent (hence its `ul` is
absent too), initialization leaves the container state untouched and skips
the grid-layout step, but it still registers the global function, still
appends the style block, and still attaches the change listener exactly when
the recurrence element exists. -/
theorem claimC4 (p : Page) (hc : p.dom.containerPresent = false) (hu : p.ul = none) :
    (initPage p).dom = p.dom
    ∧ (initPage p).ul = none
    ∧ (initPage p).styleBlocks = p.styleBlocks ++ [adminCss]
    ∧ (initPage p).windowToggleExposed = true
    ∧ (initPage p).changeListenerAttached
        = (p.recurrenceValue.isSome || p.changeListenerAttached) := by
  obtain ⟨dom, rv, cl, wt, sb, ul⟩ := p
  have hcp : dom.containerPresent = false := hc
  have hul : ul = none := hu
  subst hul
  have hdom : ∀ v, toggleDaysOfWeek v dom = dom := by
    intro v
    simp [toggleDaysOfWeek, hcp]
  cases rv <;> simp [initPage, hdom]

/-- Witness for C4 (amended): evaluated on the page with no container. -/
theorem claimC4_wit :
    (initPage pageNoContainer).dom = pageNoContainer.dom
    ∧ (initPage pageNoContainer).ul = none
    ∧ (initPage pageNoContainer).styleBlocks = pageNoContainer.styleBlocks ++ [adminCss]
    ∧ (initPage pageNoContainer).windowToggleExposed = true
    ∧ (initPage pageNoContainer).changeListenerAttached
        = (pageNoContainer.recurrenceValue.isSome || pageNoContainer.changeListenerAttached) :=
  claimC4 pageNoContainer rfl rfl

/-- Claim C8: if the container's option list is present with N items, after
initialization every one of the N items carries the `checkbox-row` layout
class, the list's display is `grid`, and the default list styling (bullets,
padding) is removed — independently of the recurrence value. -/
theorem claimC8 (p : Page) (u : Ul) (hu : p.ul = some u) :
    ∃ u2, (initPage p).ul = some u2
      ∧ u2.items.length = u.items.length
      ∧ (∀ cls ∈ u2.items, "checkbox-row" ∈ cls)
      ∧ u2.display = "grid"
      ∧ u2.listStyle = "none"
      ∧ u2.padding = "0" := by
  obtain ⟨dom, rv, cl, wt, sb, ul⟩ := p
  have hul : ul = some u := hu
  subst hul
  refine ⟨applyUlLayout u, ?_, ?_, ?_, rfl, rfl, rfl⟩
  · cases rv <;> simp [initPage]
  · simp [applyUlLayout]
  · intro cls hcls
    simp only [applyUlLayout] at hcls
    rcases List.mem_map.mp hcls with ⟨c0, _, rfl⟩
    unfold addCheckboxRowClass
    split
    · assumption
    · simp

/-- Witness for C8: evaluated on the page carrying a two-item option list
and recurrence value `'daily'`. -/
theorem claimC8_wit :
    ∃ u2, (initPage pageWithUl).ul = some u2
      ∧ u2.items.length = sampleUl.items.length
      ∧ (∀ cls ∈ u2.items, "checkbox-row" ∈ cls)
      ∧ u2.display = "grid"
      ∧ u2.listStyle = "none"
      ∧ u2.padding = "0" :=
  claimC8 pageWithUl sampleUl rfl
